import Mathlib

/-!
Verification of the firesale CLI (src/src/main.rs): environment and
argument resolution, credential precedence, and command routing. The
data model and operations below are shallow embeddings of the Rust
source; the external database library (libfiresale) and the clap
argument parser are modelled only at their interfaces.
-/

namespace Firesale

/-- Name of the environment variable holding the credential file path. -/
def GOOGLE_APPLICATION_CREDENTIALS_KEY : String := "GOOGLE_APPLICATION_CREDENTIALS"

/-- Name of the environment variable holding the project identifier. -/
def PROJECT_ID_KEY : String := "PROJECT_ID"

/-- Mirrors struct Environment: optional credential path and project id. -/
structure Environment where
  service_account_path : Option String
  project_id : Option String
deriving DecidableEq, Repr

/-- Mirrors gather_environment: reads the two variables from the process
environment, absence represented as none. The process environment is
passed explicitly as a lookup function. -/
def gather_environment (getVar : String → Option String) : Environment :=
  { service_account_path := getVar GOOGLE_APPLICATION_CREDENTIALS_KEY,
    project_id := getVar PROJECT_ID_KEY }

/-- Mirrors struct Options: wraps the CLI-defined environment. -/
structure Options where
  environment : Environment
deriving DecidableEq, Repr

/-- Mirrors struct DocumentQuery. -/
structure DocumentQuery where
  collection_name : String
  document_name : String
deriving DecidableEq, Repr

/-- Mirrors struct CollectionQuery. -/
structure CollectionQuery where
  collection_name : String
deriving DecidableEq, Repr

/-- Mirrors enum EntryPoint. -/
inductive EntryPoint where
  | GetDocument : DocumentQuery → EntryPoint
  | ViewCollection : CollectionQuery → EntryPoint
  | DeleteDocument : DocumentQuery → EntryPoint
  | Usage : String → EntryPoint
deriving DecidableEq, Repr

/-- Application metadata constant APP_NAME. -/
def APP_NAME : String := "firesale"

/-- Application metadata constant APP_VERSION. -/
def APP_VERSION : String := "0.1"

/-- Application metadata constant APP_AUTHOR. -/
def APP_AUTHOR : String := "Haze Booth <isnt@haze.cool>"

/-- Application metadata constant ABOUT_APP. -/
def ABOUT_APP : String := "CLI Firestore Interface"

/-- Argument name constant CREDENTIALS_LOCATION_ARG. -/
def CREDENTIALS_LOCATION_ARG : String := "credentials"

/-- Argument name constant PROJECT_ID_ARG. -/
def PROJECT_ID_ARG : String := "project_id"

/-- Subcommand name constant GET_SUB_COMMAND. -/
def GET_SUB_COMMAND : String := "get"

/-- Subcommand name constant DELETE_SUB_COMMAND. -/
def DELETE_SUB_COMMAND : String := "delete"

/-- Argument name constant COLLECTION_NAME. -/
def COLLECTION_NAME : String := "collection"

/-- Argument name constant COLLECTION_NAME_SHORT (declared but unused in
the source grammar). -/
def COLLECTION_NAME_SHORT : String := "c"

/-- Argument name constant DOCUMENT_NAME. -/
def DOCUMENT_NAME : String := "document"

/-- Argument name constant DOCUMENT_NAME_SHORT (declared but unused in
the source grammar). -/
def DOCUMENT_NAME_SHORT : String := "d"

/-- Specification of a single clap argument as configured by the source:
a name, a required flag, and optional short and long flag forms. The
source never sets short or long, so every argument it declares is
positional. -/
structure ArgSpec where
  name : String
  required : Bool
  short : Option String
  long : Option String
deriving DecidableEq, Repr

/-- Mirrors clap's Arg::with_name: a fresh argument, not required, with
no short or long flag form. -/
def Arg.with_name (n : String) : ArgSpec :=
  { name := n, required := false, short := none, long := none }

/-- Mirrors clap's Arg::required builder method. -/
def ArgSpec.set_required (a : ArgSpec) (b : Bool) : ArgSpec :=
  { a with required := b }

/-- Specification of a clap subcommand: a name and its arguments in
declaration order. -/
structure SubCommandSpec where
  name : String
  args : List ArgSpec
deriving DecidableEq, Repr

/-- Mirrors clap's SubCommand::with_name. -/
def SubCommand.with_name (n : String) : SubCommandSpec :=
  { name := n, args := [] }

/-- Mirrors clap's SubCommand::arg builder method: appends an argument. -/
def SubCommandSpec.arg (s : SubCommandSpec) (a : ArgSpec) : SubCommandSpec :=
  { s with args := s.args ++ [a] }

/-- Specification of the clap App: metadata, top-level arguments in
declaration order, and subcommands in declaration order. -/
structure AppSpec where
  name : String
  version : String
  author : String
  about : String
  args : List ArgSpec
  subcommands : List SubCommandSpec
deriving DecidableEq, Repr

/-- Mirrors clap's App::new. -/
def App.new (n : String) : AppSpec :=
  { name := n, version := "", author := "", about := "",
    args := [], subcommands := [] }

/-- Mirrors clap's App::version builder method. -/
def AppSpec.set_version (a : AppSpec) (v : String) : AppSpec :=
  { a with version := v }

/-- Mirrors clap's App::author builder method. -/
def AppSpec.set_author (a : AppSpec) (v : String) : AppSpec :=
  { a with author := v }

/-- Mirrors clap's App::about builder method. -/
def AppSpec.set_about (a : AppSpec) (v : String) : AppSpec :=
  { a with about := v }

/-- Mirrors clap's App::arg builder method: appends a top-level argument. -/
def AppSpec.arg (a : AppSpec) (x : ArgSpec) : AppSpec :=
  { a with args := a.args ++ [x] }

/-- Mirrors clap's App::subcommand builder method: appends a subcommand. -/
def AppSpec.subcommand (a : AppSpec) (s : SubCommandSpec) : AppSpec :=
  { a with subcommands := a.subcommands ++ [s] }

/-- The command grammar built by setup_arguments before get_matches is
called: embeds the exact builder chain of the source, with each
top-level argument required exactly when the corresponding environment
variable is absent. -/
def setup_app (environ : Environment) : AppSpec :=
  ((((((App.new APP_NAME).set_version APP_VERSION).set_author
        APP_AUTHOR).set_about
      ABOUT_APP).arg
        ((Arg.with_name PROJECT_ID_ARG).set_required environ.project_id.isNone)).arg
        ((Arg.with_name CREDENTIALS_LOCATION_ARG).set_required
          environ.service_account_path.isNone)).subcommand
      ((SubCommand.with_name GET_SUB_COMMAND).arg
          ((Arg.with_name COLLECTION_NAME).set_required true)
        |>.arg (Arg.with_name DOCUMENT_NAME))
  |>.subcommand
      ((SubCommand.with_name DELETE_SUB_COMMAND).arg
          ((Arg.with_name COLLECTION_NAME).set_required true)
        |>.arg (Arg.with_name DOCUMENT_NAME))

/-- Result of a clap parse at one level: the matched argument values, at
most one matched subcommand with its own nested result, and the generated
usage text. Mirrors clap's ArgMatches as used by the source. -/
inductive ArgMatches : Type where
  | mk (values : List (String × String)) (sub : Option (String × ArgMatches))
      (usage : String) : ArgMatches

/-- Mirrors ArgMatches::value_of: the value matched for an argument name,
if any. -/
def ArgMatches.value_of : ArgMatches → String → Option String
  | ArgMatches.mk vs _ _, n => (vs.find? (fun p => p.1 == n)).map Prod.snd

/-- Mirrors ArgMatches::is_present for the positional arguments used
here: an argument is present exactly when it has a matched value. -/
def ArgMatches.is_present (m : ArgMatches) (n : String) : Bool :=
  (m.value_of n).isSome

/-- Mirrors ArgMatches::subcommand_matches: the nested result when the
named subcommand was the one used. -/
def ArgMatches.subcommand_matches : ArgMatches → String → Option ArgMatches
  | ArgMatches.mk _ sub _, n =>
    match sub with
    | some (sn, sm) => if sn == n then some sm else none
    | none => none

/-- Mirrors ArgMatches::usage: the generated usage text carried by the
match result. -/
def ArgMatches.usage : ArgMatches → String
  | ArgMatches.mk _ _ u => u

/-- The environment block built inside setup_arguments from the
top-level CLI match result. -/
def cli_environment (ms : ArgMatches) : Environment :=
  { service_account_path := ms.value_of CREDENTIALS_LOCATION_ARG,
    project_id := ms.value_of PROJECT_ID_ARG }

/-- Mirrors DocumentQuery::from_sub_matches. The source unwraps both
values and panics when one is missing; the panic is modelled as none. -/
def DocumentQuery.from_sub_matches (ms : ArgMatches) : Option DocumentQuery := do
  let collection_name ← ms.value_of COLLECTION_NAME
  let document_name ← ms.value_of DOCUMENT_NAME
  pure { collection_name := collection_name, document_name := document_name }

/-- Mirrors CollectionQuery::from_sub_matches. The source unwraps the
collection value; the panic is modelled as none. -/
def CollectionQuery.from_sub_matches (ms : ArgMatches) : Option CollectionQuery := do
  let collection_name ← ms.value_of COLLECTION_NAME
  pure { collection_name := collection_name }

/-- The resolution half of setup_arguments, applied to the match result that
clap's get_matches returned: builds the Options from the top-level
values and selects the EntryPoint. A none result models a panic of one
of the unwraps. -/
def setup_arguments_resolve (ms : ArgMatches) :
    Option (Options × EntryPoint) := do
  let options : Options := { environment := cli_environment ms }
  match ms.subcommand_matches GET_SUB_COMMAND with
  | some get_command =>
    if get_command.is_present DOCUMENT_NAME then do
      let query ← DocumentQuery.from_sub_matches get_command
      pure (options, EntryPoint.GetDocument query)
    else do
      let query ← CollectionQuery.from_sub_matches get_command
      pure (options, EntryPoint.ViewCollection query)
  | none =>
    match ms.subcommand_matches DELETE_SUB_COMMAND with
    | some delete_command => do
      let query ← DocumentQuery.from_sub_matches delete_command
      pure (options, EntryPoint.DeleteDocument query)
    | none => pure (options, EntryPoint.Usage ms.usage)

/-- The error string of main's else branch. -/
def context_error_msg : String :=
  "Failed to create database context, not provided in environment variables or cli args"

/-- Mirrors the context block of main up to the calls of
DatabaseContext::new: selects the (project id, credential path) pair
passed to the constructor, preferring the complete CLI pair, then the
complete environment pair, and failing otherwise. -/
def resolve_context (options : Options) (environment : Environment) :
    Except String (String × String) :=
  match options.environment.service_account_path, options.environment.project_id with
  | some service_account_path, some project_id =>
    Except.ok (project_id, service_account_path)
  | _, _ =>
    match environment.service_account_path, environment.project_id with
    | some service_account_path, some project_id =>
      Except.ok (project_id, service_account_path)
    | _, _ => Except.error context_error_msg

/-- The external DatabaseContext, modelled at its interface: the values
its constructor received. -/
structure DatabaseContext where
  project_id : String
  service_account_path : String
deriving DecidableEq, Repr

/-- The observable effect of main's dispatch: which external handler was
invoked, with which query and context, or no operation for Usage. -/
inductive Action where
  | handle_document_get : DocumentQuery → DatabaseContext → Action
  | handle_document_view : CollectionQuery → DatabaseContext → Action
  | handle_document_delete : DocumentQuery → DatabaseContext → Action
  | no_op : Action
deriving DecidableEq, Repr

/-- Mirrors main, parameterised by the external constructor
DatabaseContext::new (dbNew), the process environment (getVar) and the
match result produced by clap (ms). The outer none models a panic
inside setup_arguments; the inner Except is main's result, with ok
carrying the handler invocation performed. -/
def main_model (dbNew : String → String → Except String DatabaseContext)
    (getVar : String → Option String) (ms : ArgMatches) :
    Option (Except String Action) := do
  let environment := gather_environment getVar
  let (options, entrypoint) ← setup_arguments_resolve ms
  some (match resolve_context options environment with
    | Except.error e => Except.error e
    | Except.ok pair =>
      match dbNew pair.1 pair.2 with
      | Except.error e => Except.error e
      | Except.ok context =>
        Except.ok (match entrypoint with
          | EntryPoint.GetDocument query => Action.handle_document_get query context
          | EntryPoint.ViewCollection query => Action.handle_document_view query context
          | EntryPoint.DeleteDocument query => Action.handle_document_delete query context
          | EntryPoint.Usage _ => Action.no_op))

/-- The names of the positional arguments of a declared argument list,
in declaration order: an argument with neither a short nor a long flag
form is positional. -/
def positionals (args : List ArgSpec) : List String :=
  (args.filter (fun a => a.short.isNone && a.long.isNone)).map ArgSpec.name

/-- Pairs positional argument names with CLI tokens in order. -/
def assign : List String → List String → List (String × String)
  | n :: ns, t :: ts => (n, t) :: assign ns ts
  | _, _ => []

/-- Splits a token list at the first token naming a subcommand. -/
def split_at_sub (subs : List String) : List String → (List String × Option (String × List String))
  | [] => ([], none)
  | t :: ts =>
    if subs.contains t then ([], some (t, ts))
    else
      let rest := split_at_sub subs ts
      (t :: rest.1, rest.2)

/-- Modelled from the spec: the usage text that clap generates for the
app; its exact content is produced by the external clap library and is
modelled as a deterministic function of the grammar. -/
def AppSpec.usage_string (app : AppSpec) : String :=
  "USAGE: " ++ app.name ++ " <args> [SUBCOMMAND]"

/-- Modelled from the spec: clap's get_matches is external library code.
This models its positional behaviour for the grammar at hand — each
bare token fills the next positional argument in declaration order, a
token naming a subcommand selects that subcommand, and the tokens after
it fill the subcommand's positional arguments in declaration order. -/
def parse_app (app : AppSpec) (tokens : List String) : ArgMatches :=
  let split := split_at_sub (app.subcommands.map SubCommandSpec.name) tokens
  let topVals := assign (positionals app.args) split.1
  let sub := split.2.map (fun p =>
    match app.subcommands.find? (fun sc => sc.name == p.1) with
    | some sc => (p.1, ArgMatches.mk (assign (positionals sc.args) p.2) none "")
    | none => (p.1, ArgMatches.mk [] none ""))
  ArgMatches.mk topVals sub app.usage_string

/-!
Helper lemmas shared by the claim theorems.
-/

/-- A successful subcommand match pins down the shape of the match
result: the subcommand slot holds exactly the matched name and nested
result. -/
theorem subcommand_matches_some_elim (m sm : ArgMatches) (n : String)
    (h : m.subcommand_matches n = some sm) :
    ∃ vs u, m = ArgMatches.mk vs (some (n, sm)) u := by
  cases m with
  | mk vs sub u =>
    cases sub with
    | none => simp [ArgMatches.subcommand_matches] at h
    | some p =>
      obtain ⟨sn, sm2⟩ := p
      by_cases hsn : sn = n
      · subst hsn
        simp [ArgMatches.subcommand_matches] at h
        exact ⟨vs, u, by rw [h]⟩
      · simp [ArgMatches.subcommand_matches, beq_iff_eq, hsn] at h

/-- Whenever setup_arguments resolution completes without a panic, the
Options it returns wrap exactly the CLI-derived environment. -/
theorem setup_arguments_resolve_cases (ms : ArgMatches) :
    setup_arguments_resolve ms = none
    ∨ ∃ ep, setup_arguments_resolve ms =
        some ({ environment := cli_environment ms }, ep) := by
  cases ms with
  | mk vs sub u =>
    cases sub with
    | none => exact Or.inr ⟨EntryPoint.Usage u, rfl⟩
    | some p =>
      obtain ⟨sn, sm⟩ := p
      by_cases hg : sn = GET_SUB_COMMAND
      · subst hg
        cases hd : sm.value_of DOCUMENT_NAME with
        | some d =>
          cases hcol : sm.value_of COLLECTION_NAME with
          | some c =>
            refine Or.inr ⟨EntryPoint.GetDocument
              { collection_name := c, document_name := d }, ?_⟩
            simp [setup_arguments_resolve, ArgMatches.subcommand_matches,
              ArgMatches.is_present, DocumentQuery.from_sub_matches, hcol, hd]
          | none =>
            refine Or.inl ?_
            simp [setup_arguments_resolve, ArgMatches.subcommand_matches,
              ArgMatches.is_present, DocumentQuery.from_sub_matches, hcol, hd]
        | none =>
          cases hcol : sm.value_of COLLECTION_NAME with
          | some c =>
            refine Or.inr ⟨EntryPoint.ViewCollection { collection_name := c }, ?_⟩
            simp [setup_arguments_resolve, ArgMatches.subcommand_matches,
              ArgMatches.is_present, CollectionQuery.from_sub_matches, hcol, hd]
          | none =>
            refine Or.inl ?_
            simp [setup_arguments_resolve, ArgMatches.subcommand_matches,
              ArgMatches.is_present, CollectionQuery.from_sub_matches, hcol, hd]
      · by_cases hdel : sn = DELETE_SUB_COMMAND
        · subst hdel
          have hdg : (DELETE_SUB_COMMAND == GET_SUB_COMMAND) = false := by decide
          cases hq : DocumentQuery.from_sub_matches sm with
          | some q =>
            refine Or.inr ⟨EntryPoint.DeleteDocument q, ?_⟩
            simp [setup_arguments_resolve, ArgMatches.subcommand_matches, hdg, hq]
          | none =>
            refine Or.inl ?_
            simp [setup_arguments_resolve, ArgMatches.subcommand_matches, hdg, hq]
        · refine Or.inr ⟨EntryPoint.Usage u, ?_⟩
          have h1 : (sn == GET_SUB_COMMAND) = false := beq_eq_false_iff_ne.mpr hg
          have h2 : (sn == DELETE_SUB_COMMAND) = false := beq_eq_false_iff_ne.mpr hdel
          simp [setup_arguments_resolve, ArgMatches.subcommand_matches, h1, h2,
            ArgMatches.usage]

/-- When neither the CLI layer nor the environment layer offers a
complete (credential path, project id) pair, context resolution yields
the fixed descriptive error. -/
theorem resolve_context_error (options : Options) (environment : Environment)
    (hcli : options.environment.service_account_path = none ∨
      options.environment.project_id = none)
    (henv : environment.service_account_path = none ∨
      environment.project_id = none) :
    resolve_context options environment = Except.error context_error_msg := by
  obtain ⟨⟨osap, opid⟩⟩ := options
  obtain ⟨esap, epid⟩ := environment
  cases osap <;> cases opid <;> cases esap <;> cases epid <;>
    simp_all [resolve_context]

/-!
Concrete input material used by the witness theorems.
-/

/-- Witness value: a CLI credential path. -/
def wCred : String := "cli-credentials.json"

/-- Witness value: a CLI project id. -/
def wProj : String := "cli-project"

/-- Witness value: an environment credential path. -/
def wCredEnv : String := "env-credentials.json"

/-- Witness value: an environment project id. -/
def wProjEnv : String := "env-project"

/-- Witness value: a collection name. -/
def wColl : String := "mycollection"

/-- Witness value: a document name. -/
def wDoc : String := "mydoc"

/-- Witness value: a usage text. -/
def wUsage : String := "usage text"

/-- Witness value: an Options with a complete CLI pair. -/
def wOptions : Options :=
  { environment := { service_account_path := some wCred, project_id := some wProj } }

/-- Witness value: an empty environment. -/
def wEnvEmpty : Environment := { service_account_path := none, project_id := none }

/-- Witness value: a get subcommand match with collection and document. -/
def wGetCmd : ArgMatches :=
  ArgMatches.mk [(COLLECTION_NAME, wColl), (DOCUMENT_NAME, wDoc)] none wUsage

/-- Witness value: a top-level match carrying the get subcommand. -/
def wGetMs : ArgMatches := ArgMatches.mk [] (some (GET_SUB_COMMAND, wGetCmd)) wUsage

/-- Witness value: a delete subcommand match with collection and document. -/
def wDelCmd : ArgMatches :=
  ArgMatches.mk [(COLLECTION_NAME, wColl), (DOCUMENT_NAME, wDoc)] none wUsage

/-- Witness value: a top-level match carrying the delete subcommand. -/
def wDelMs : ArgMatches := ArgMatches.mk [] (some (DELETE_SUB_COMMAND, wDelCmd)) wUsage

/-- Witness value: a delete subcommand match missing the document name. -/
def wDelCmdNoDoc : ArgMatches := ArgMatches.mk [(COLLECTION_NAME, wColl)] none wUsage

/-- Witness value: a top-level match carrying delete without a document. -/
def wDelMsNoDoc : ArgMatches :=
  ArgMatches.mk [] (some (DELETE_SUB_COMMAND, wDelCmdNoDoc)) wUsage

/-- Witness value: a top-level match with no subcommand and no values. -/
def wEmptyMs : ArgMatches := ArgMatches.mk [] none wUsage

/-- Witness value: a database constructor that always succeeds. -/
def wDbNew (p s : String) : Except String DatabaseContext :=
  Except.ok { project_id := p, service_account_path := s }

/-- Witness value: a process environment with no variables set. -/
def wGetVarNone (_v : String) : Option String := none

/-!
Claim theorems.
-/

/-- C1: when the CLI supplies both a project id and a credentials path,
the database context is constructed from those two CLI values,
regardless of what the environment holds. -/
theorem cli_pair_precedence (options : Options) (environment : Environment)
    (sap pid : String)
    (hs : options.environment.service_account_path = some sap)
    (hp : options.environment.project_id = some pid) :
    resolve_context options environment = Except.ok (pid, sap) := by
  simp [resolve_context, hs, hp]

/-- Witness for C1 at a concrete input with conflicting environment
values. -/
theorem cli_pair_precedence_witness :
    resolve_context wOptions
      { service_account_path := some wCredEnv, project_id := some wProjEnv }
      = Except.ok (wProj, wCred) :=
  cli_pair_precedence _ _ wCred wProj rfl rfl

/-- C2: when neither the CLI nor the environment supplies a complete
pair, main fails with the fixed non-empty error string and no document
handler is invoked. -/
theorem incomplete_pair_fails_no_handler
    (dbNew : String → String → Except String DatabaseContext)
    (getVar : String → Option String) (ms : ArgMatches) (pr : Options × EntryPoint)
    (hres : setup_arguments_resolve ms = some pr)
    (hcli : (cli_environment ms).service_account_path = none ∨
      (cli_environment ms).project_id = none)
    (henv : (gather_environment getVar).service_account_path = none ∨
      (gather_environment getVar).project_id = none) :
    main_model dbNew getVar ms = some (Except.error context_error_msg)
      ∧ context_error_msg ≠ ""
      ∧ ∀ a : Action, main_model dbNew getVar ms ≠ some (Except.ok a) := by
  obtain ⟨opts, ep⟩ := pr
  have hopts : opts = { environment := cli_environment ms } := by
    rcases setup_arguments_resolve_cases ms with hnone | ⟨ep2, hsome⟩
    · rw [hres] at hnone; cases hnone
    · rw [hres] at hsome
      exact congrArg Prod.fst (Option.some.inj hsome)
  have hcli2 : opts.environment.service_account_path = none ∨
      opts.environment.project_id = none := by
    rw [hopts]; exact hcli
  have herr := resolve_context_error opts (gather_environment getVar) hcli2 henv
  have hmain : main_model dbNew getVar ms = some (Except.error context_error_msg) := by
    simp [main_model, hres, herr]
  refine ⟨hmain, by decide, ?_⟩
  intro a h
  rw [hmain] at h
  simp at h

/-- Witness for C2 at a concrete input with empty CLI values and empty
environment. -/
theorem incomplete_pair_fails_no_handler_witness :
    main_model wDbNew wGetVarNone wEmptyMs = some (Except.error context_error_msg) :=
  (incomplete_pair_fails_no_handler wDbNew wGetVarNone wEmptyMs
    ({ environment := { service_account_path := none, project_id := none } },
      EntryPoint.Usage wUsage) rfl (Or.inl rfl) (Or.inl rfl)).1

/-- C3: the credential merge is atomic — the pair handed to the
database-context constructor is entirely the CLI pair or entirely the
environment pair, never one field from each. -/
theorem credential_merge_atomic (options : Options) (environment : Environment)
    (pid sap : String)
    (h : resolve_context options environment = Except.ok (pid, sap)) :
    (options.environment.project_id = some pid ∧
      options.environment.service_account_path = some sap)
    ∨ (environment.project_id = some pid ∧
      environment.service_account_path = some sap) := by
  obtain ⟨⟨osap, opid⟩⟩ := options
  obtain ⟨esap, epid⟩ := environment
  cases osap <;> cases opid <;> cases esap <;> cases epid <;>
    simp_all [resolve_context]

/-- Witness for C3 at a concrete input resolved from the CLI pair. -/
theorem credential_merge_atomic_witness :
    (wOptions.environment.project_id = some wProj ∧
      wOptions.environment.service_account_path = some wCred)
    ∨ (wEnvEmpty.project_id = some wProj ∧
      wEnvEmpty.service_account_path = some wCred) :=
  credential_merge_atomic wOptions wEnvEmpty wProj wCred rfl

/-- C4: a get invocation with a document name resolves to GetDocument
with that collection and document; without a document name it resolves
to ViewCollection with that collection. -/
theorem get_subcommand_resolution (ms get_command : ArgMatches) (c : String)
    (hget : ms.subcommand_matches GET_SUB_COMMAND = some get_command)
    (hc : get_command.value_of COLLECTION_NAME = some c) :
    (∀ d : String, get_command.value_of DOCUMENT_NAME = some d →
      setup_arguments_resolve ms =
        some ({ environment := cli_environment ms },
          EntryPoint.GetDocument { collection_name := c, document_name := d }))
    ∧ (get_command.value_of DOCUMENT_NAME = none →
      setup_arguments_resolve ms =
        some ({ environment := cli_environment ms },
          EntryPoint.ViewCollection { collection_name := c })) := by
  obtain ⟨vs, u, rfl⟩ := subcommand_matches_some_elim ms get_command GET_SUB_COMMAND hget
  constructor
  · intro d hd
    simp [setup_arguments_resolve, ArgMatches.subcommand_matches,
      ArgMatches.is_present, DocumentQuery.from_sub_matches, hc, hd]
  · intro hd
    simp [setup_arguments_resolve, ArgMatches.subcommand_matches,
      ArgMatches.is_present, CollectionQuery.from_sub_matches, hc, hd]

/-- Witness for C4 at a concrete get invocation with a document name. -/
theorem get_subcommand_resolution_witness :
    setup_arguments_resolve wGetMs =
      some ({ environment := cli_environment wGetMs },
        EntryPoint.GetDocument { collection_name := wColl, document_name := wDoc }) :=
  (get_subcommand_resolution wGetMs wGetCmd wColl rfl rfl).1 wDoc rfl

/-- C5: a delete invocation only ever resolves to DeleteDocument, and
with both names present it resolves to DeleteDocument carrying them. -/
theorem delete_subcommand_resolution (ms delete_command : ArgMatches)
    (hdel : ms.subcommand_matches DELETE_SUB_COMMAND = some delete_command) :
    (∀ pr : Options × EntryPoint, setup_arguments_resolve ms = some pr →
      ∃ q : DocumentQuery,
        pr = ({ environment := cli_environment ms }, EntryPoint.DeleteDocument q))
    ∧ (∀ c d : String, delete_command.value_of COLLECTION_NAME = some c →
      delete_command.value_of DOCUMENT_NAME = some d →
      setup_arguments_resolve ms =
        some ({ environment := cli_environment ms },
          EntryPoint.DeleteDocument { collection_name := c, document_name := d })) := by
  obtain ⟨vs, u, rfl⟩ :=
    subcommand_matches_some_elim ms delete_command DELETE_SUB_COMMAND hdel
  have hdg : (DELETE_SUB_COMMAND == GET_SUB_COMMAND) = false := by decide
  constructor
  · intro pr h
    cases hq : DocumentQuery.from_sub_matches delete_command with
    | none =>
      simp [setup_arguments_resolve, ArgMatches.subcommand_matches, hdg, hq] at h
    | some q =>
      simp [setup_arguments_resolve, ArgMatches.subcommand_matches, hdg, hq] at h
      exact ⟨q, h.symm⟩
  · intro c d hc hd
    simp [setup_arguments_resolve, ArgMatches.subcommand_matches, hdg,
      DocumentQuery.from_sub_matches, hc, hd]

/-- Witness for C5 at a concrete delete invocation with both names. -/
theorem delete_subcommand_resolution_witness :
    setup_arguments_resolve wDelMs =
      some ({ environment := cli_environment wDelMs },
        EntryPoint.DeleteDocument { collection_name := wColl, document_name := wDoc }) :=
  (delete_subcommand_resolution wDelMs wDelCmd rfl).2 wColl wDoc rfl rfl

/-- C6: with no recognized subcommand, resolution selects Usage carrying
the generated usage text, and main never invokes a document handler —
any successful run performs no operation. -/
theorem unrecognized_subcommand_usage (ms : ArgMatches)
    (hget : ms.subcommand_matches GET_SUB_COMMAND = none)
    (hdel : ms.subcommand_matches DELETE_SUB_COMMAND = none) :
    setup_arguments_resolve ms =
      some ({ environment := cli_environment ms }, EntryPoint.Usage ms.usage)
    ∧ ∀ (dbNew : String → String → Except String DatabaseContext)
        (getVar : String → Option String) (a : Action),
        main_model dbNew getVar ms = some (Except.ok a) → a = Action.no_op := by
  have h1 : setup_arguments_resolve ms =
      some ({ environment := cli_environment ms }, EntryPoint.Usage ms.usage) := by
    simp [setup_arguments_resolve, hget, hdel]
  refine ⟨h1, ?_⟩
  intro dbNew getVar a h
  simp only [main_model, h1, Option.bind_eq_bind, Option.some_bind] at h
  cases hrc : resolve_context { environment := cli_environment ms }
      (gather_environment getVar) with
  | error e => simp [hrc] at h
  | ok pair =>
    cases hdb : dbNew pair.1 pair.2 with
    | error e => simp [hrc, hdb] at h
    | ok context =>
      simp [hrc, hdb] at h
      exact h.symm

/-- Witness for C6 at a concrete invocation with no subcommand. -/
theorem unrecognized_subcommand_usage_witness :
    setup_arguments_resolve wEmptyMs =
      some ({ environment := cli_environment wEmptyMs }, EntryPoint.Usage wUsage) :=
  (unrecognized_subcommand_usage wEmptyMs rfl rfl).1

/-- C7: with both environment variables set and no CLI override, context
resolution succeeds with the environment pair. -/
theorem environment_fallback_success (options : Options) (environment : Environment)
    (sap pid : String)
    (hcs : options.environment.service_account_path = none)
    (hcp : options.environment.project_id = none)
    (hes : environment.service_account_path = some sap)
    (hep : environment.project_id = some pid) :
    resolve_context options environment = Except.ok (pid, sap) := by
  simp [resolve_context, hcs, hcp, hes, hep]

/-- Witness for C7 at a concrete environment-only input. -/
theorem environment_fallback_success_witness :
    resolve_context { environment := { service_account_path := none, project_id := none } }
      { service_account_path := some wCredEnv, project_id := some wProjEnv }
      = Except.ok (wProjEnv, wCredEnv) :=
  environment_fallback_success _ _ wCredEnv wProjEnv rfl rfl rfl rfl

/-- C8: in the grammar, each top-level argument is marked required
exactly when its environment variable was absent, and both subcommands
take a required collection argument and an optional document argument. -/
theorem grammar_required_marks (environ : Environment) :
    ((setup_app environ).args.map (fun a => (a.name, a.required)))
      = [(PROJECT_ID_ARG, environ.project_id.isNone),
         (CREDENTIALS_LOCATION_ARG, environ.service_account_path.isNone)]
    ∧ ((setup_app environ).subcommands.map
        (fun sc => (sc.name, sc.args.map (fun a => (a.name, a.required)))))
      = [(GET_SUB_COMMAND, [(COLLECTION_NAME, true), (DOCUMENT_NAME, false)]),
         (DELETE_SUB_COMMAND, [(COLLECTION_NAME, true), (DOCUMENT_NAME, false)])] :=
  ⟨rfl, rfl⟩

/-- Witness for C8 at a concrete environment with only the project id
set: the credentials argument alone is marked required. -/
theorem grammar_required_marks_witness :
    ((setup_app { service_account_path := none, project_id := some wProjEnv }).args.map
        (fun a => (a.name, a.required)))
      = [(PROJECT_ID_ARG, false), (CREDENTIALS_LOCATION_ARG, true)] :=
  (grammar_required_marks
    { service_account_path := none, project_id := some wProjEnv }).1

/-- C9: a delete invocation with the document name absent makes the
resolution logic panic (the unwrap of the missing document name,
modelled as none) instead of failing gracefully. -/
theorem delete_missing_document_panics (ms delete_command : ArgMatches) (c : String)
    (hdel : ms.subcommand_matches DELETE_SUB_COMMAND = some delete_command)
    (hc : delete_command.value_of COLLECTION_NAME = some c)
    (hd : delete_command.value_of DOCUMENT_NAME = none) :
    DocumentQuery.from_sub_matches delete_command = none
    ∧ setup_arguments_resolve ms = none := by
  obtain ⟨vs, u, rfl⟩ :=
    subcommand_matches_some_elim ms delete_command DELETE_SUB_COMMAND hdel
  have hq : DocumentQuery.from_sub_matches delete_command = none := by
    simp [DocumentQuery.from_sub_matches, hc, hd]
  have hdg : (DELETE_SUB_COMMAND == GET_SUB_COMMAND) = false := by decide
  refine ⟨hq, ?_⟩
  simp [setup_arguments_resolve, ArgMatches.subcommand_matches, hdg, hq]

/-- Witness for C9 at a concrete delete invocation without a document. -/
theorem delete_missing_document_panics_witness :
    setup_arguments_resolve wDelMsNoDoc = none :=
  (delete_missing_document_panics wDelMsNoDoc wDelCmdNoDoc wColl rfl rfl rfl).2

/-- C10: all declared arguments are bare positionals, the top level
interprets the first token as the project id and the second as the
credentials path, and each subcommand interprets its first token as the
collection name and its second as the document name. -/
theorem positional_argument_order (environ : Environment) (t1 t2 c d : String)
    (h1g : t1 ≠ GET_SUB_COMMAND) (h1d : t1 ≠ DELETE_SUB_COMMAND)
    (h2g : t2 ≠ GET_SUB_COMMAND) (h2d : t2 ≠ DELETE_SUB_COMMAND) :
    ((setup_app environ).args.all (fun a => a.short.isNone && a.long.isNone)) = true
    ∧ positionals (setup_app environ).args = [PROJECT_ID_ARG, CREDENTIALS_LOCATION_ARG]
    ∧ ((setup_app environ).subcommands.map (fun sc => positionals sc.args))
      = [[COLLECTION_NAME, DOCUMENT_NAME], [COLLECTION_NAME, DOCUMENT_NAME]]
    ∧ (parse_app (setup_app environ) [t1, t2]).value_of PROJECT_ID_ARG = some t1
    ∧ (parse_app (setup_app environ) [t1, t2]).value_of CREDENTIALS_LOCATION_ARG = some t2
    ∧ (parse_app (setup_app environ)
        [t1, t2, GET_SUB_COMMAND, c, d]).subcommand_matches GET_SUB_COMMAND
      = some (ArgMatches.mk [(COLLECTION_NAME, c), (DOCUMENT_NAME, d)] none "")
    ∧ (parse_app (setup_app environ)
        [t1, t2, DELETE_SUB_COMMAND, c, d]).subcommand_matches DELETE_SUB_COMMAND
      = some (ArgMatches.mk [(COLLECTION_NAME, c), (DOCUMENT_NAME, d)] none "") := by
  have hb1g : (t1 == GET_SUB_COMMAND) = false := beq_eq_false_iff_ne.mpr h1g
  have hb1d : (t1 == DELETE_SUB_COMMAND) = false := beq_eq_false_iff_ne.mpr h1d
  have hb2g : (t2 == GET_SUB_COMMAND) = false := beq_eq_false_iff_ne.mpr h2g
  have hb2d : (t2 == DELETE_SUB_COMMAND) = false := beq_eq_false_iff_ne.mpr h2d
  simp only [GET_SUB_COMMAND,
    DELETE_SUB_COMMAND] at h1g h1d h2g h2d hb1g hb1d hb2g hb2d
  refine ⟨rfl, rfl, rfl, ?_, ?_, ?_, ?_⟩ <;>
    simp [parse_app, setup_app, split_at_sub, positionals, assign,
      ArgMatches.value_of, ArgMatches.subcommand_matches, App.new,
      AppSpec.set_version, AppSpec.set_author, AppSpec.set_about, AppSpec.arg,
      AppSpec.subcommand, SubCommand.with_name, SubCommandSpec.arg,
      Arg.with_name, ArgSpec.set_required, List.contains,
      PROJECT_ID_ARG, CREDENTIALS_LOCATION_ARG, GET_SUB_COMMAND,
      DELETE_SUB_COMMAND, COLLECTION_NAME, DOCUMENT_NAME,
      hb1g, hb1d, hb2g, hb2d, h1g, h1d, h2g, h2d]

/-- Witness for C10 at concrete tokens that name no subcommand. -/
theorem positional_argument_order_witness :
    (parse_app (setup_app { service_account_path := none, project_id := none })
      [wProj, wCred]).value_of PROJECT_ID_ARG = some wProj :=
  (positional_argument_order
    { service_account_path := none, project_id := none } wProj wCred wColl wDoc
    (by decide) (by decide) (by decide) (by decide)).2.2.2.1

end Firesale
